import Mathlib

/-!
Verification development for the rmeter load-testing engine core
(crates/rmeter-core).  Rust source functions are embedded shallowly:

* Rust `String` values are modelled as `String` / `List Char`; character
  indices are used where the source uses byte indices (the two agree on
  ASCII data, and every concrete input used below is ASCII unless byte
  structure is the point, as in the body-truncation model).
* `u64` / `usize` counters are modelled as `Nat`; the workloads the engine
  targets keep every counter far below `2 ^ 64`, so wrap-around is not
  modelled.  The `u64::MAX` sentinel used by the aggregator is kept as the
  literal `2 ^ 64 - 1`.
* Code that can panic is modelled in `Option`, with `none` denoting a panic.
* External effects (the network, `serde_json` parsing, the `regex` crate,
  clocks) are passed in as explicit data or function parameters.
* `f64` arithmetic in the percentile computation is modelled exactly over
  `ℚ` by `floatRound`, round-to-nearest-even at 53 significant bits
  (normal range; the claims only evaluate it on normal-range values).
-/

namespace Rmeter

/-! ## Variable substitution (extractors/mod.rs, `substitute_variables`)

The variable store `HashMap<String, String>` is modelled as an association
list with distinct keys; `HashMap::get` is `List.lookup`. -/

/-- Scan until the first unconsumed right brace, mirroring the
`for c in chars.by_ref()` loop of `substitute_variables`: returns the
characters read before the brace and, when a brace was found, the rest of
the input after it (`none` when the input ended first). -/
def spanUntilRBrace : List Char → List Char × Option (List Char)
  | [] => ([], none)
  | c :: rest =>
    if c = '}' then ([], some rest)
    else (c :: (spanUntilRBrace rest).1, (spanUntilRBrace rest).2)

theorem spanUntilRBrace_length (l nm r : List Char)
    (h : spanUntilRBrace l = (nm, some r)) : l.length = nm.length + 1 + r.length := by
  induction l generalizing nm with
  | nil => simp [spanUntilRBrace] at h
  | cons c rest ih =>
    rcases hsp : spanUntilRBrace rest with ⟨nm', r'⟩
    by_cases hc : c = '}'
    · rw [spanUntilRBrace, if_pos hc] at h
      injection h with h1 h2
      injection h2 with h2
      subst h1 h2
      simp
      omega
    · rw [spanUntilRBrace, if_neg hc, hsp] at h
      injection h with h1 h2
      subst h2
      have := ih nm' (by rw [hsp])
      subst h1
      simp [this]
      omega

/-- Scanner loop of `substitute_variables`: the `while let Some(ch) = chars.next()`
body, translated case by case.  On `$` followed by `{` the variable name is
read up to `}`; a bound name is replaced by its value, an unbound name is
re-emitted as an intact placeholder, and an unclosed `$` + brace is
re-emitted verbatim.  Any other character is copied. -/
def substLoop (vars : List (String × String)) : List Char → List Char
  | [] => []
  | [c] => [c]
  | c1 :: c2 :: rest =>
    if c1 = '$' ∧ c2 = '{' then
      match h2 : spanUntilRBrace rest with
      | (name, some after) =>
        (match List.lookup (String.mk name) vars with
         | some v => v.data
         | none => '$' :: '{' :: (name ++ ['}'])) ++ substLoop vars after
      | (name, none) => '$' :: '{' :: name
    else c1 :: substLoop vars (c2 :: rest)
termination_by l => l.length
decreasing_by
  · have := spanUntilRBrace_length rest _ _ h2
    simp
    omega
  · simp

/-- Fast-path test of `substitute_variables`: Rust `input.contains` applied
to the two-character placeholder opener. -/
def hasDollarBrace : List Char → Bool
  | [] => false
  | [_] => false
  | c1 :: c2 :: rest => (c1 = '$' ∧ c2 = '{' : Bool) || hasDollarBrace (c2 :: rest)

/-- Embedding of `substitute_variables(input, variables)` from
crates/rmeter-core/src/extractors/mod.rs: fast path when the input contains
no placeholder opener, otherwise the scanner loop. -/
def substitute_variables (input : List Char) (vars : List (String × String)) :
    List Char :=
  if hasDollarBrace input then substLoop vars input else input

/-- Locate the first placeholder opener in the input: the characters before
it and the characters after it.  Used only by the specification-side
scanner `substSpec`. -/
def findDollarBrace : List Char → Option (List Char × List Char)
  | [] => none
  | [_] => none
  | c1 :: c2 :: rest =>
    if c1 = '$' ∧ c2 = '{' then some ([], rest)
    else (findDollarBrace (c2 :: rest)).map (fun pr => (c1 :: pr.1, pr.2))

theorem findDollarBrace_length (l pre rest : List Char)
    (h : findDollarBrace l = some (pre, rest)) :
    l.length = pre.length + 2 + rest.length := by
  induction l using findDollarBrace.induct generalizing pre rest with
  | case1 => simp [findDollarBrace] at h
  | case2 => simp [findDollarBrace] at h
  | case3 c1 c2 tl hc =>
    rw [findDollarBrace, if_pos hc] at h
    injection h with h
    injection h with h1 h2
    subst h1 h2
    simp
    omega
  | case4 c1 c2 tl hc ih =>
    rw [findDollarBrace, if_neg hc] at h
    rcases hf : findDollarBrace (c2 :: tl) with _ | ⟨pre', rest'⟩
    · rw [hf] at h
      simp at h
    · rw [hf] at h
      simp at h
      have := ih _ _ hf
      obtain ⟨h1, h2⟩ := h
      subst h2
      simp [← h1]
      simp at this
      omega

/-- Specification-side scanner, following the words of the spec: scan left
to right; on a placeholder opener read until the next right brace and look
the name up (substitute if found, leave the placeholder intact if not); if
the opener is never closed, emit the consumed text verbatim; a dollar sign
not followed by a left brace (and every other character) is copied
verbatim. -/
def substSpec (vars : List (String × String)) (input : List Char) : List Char :=
  match h : findDollarBrace input with
  | none => input
  | some (pre, rest) =>
    match h2 : spanUntilRBrace rest with
    | (name, none) => pre ++ '$' :: '{' :: name
    | (name, some after) =>
      pre ++ (match List.lookup (String.mk name) vars with
              | some v => v.data
              | none => '$' :: '{' :: (name ++ ['}'])) ++ substSpec vars after
termination_by input.length
decreasing_by
  have hl := findDollarBrace_length input pre rest h
  have := spanUntilRBrace_length rest _ _ h2
  omega

theorem substSpec_of_find_none (vars : List (String × String)) (input : List Char)
    (hf : findDollarBrace input = none) : substSpec vars input = input := by
  rw [substSpec]
  split
  · rfl
  · rename_i pre rest heq
    rw [hf] at heq
    exact absurd heq (by simp)

theorem substSpec_of_find_some (vars : List (String × String))
    (input pre rest : List Char)
    (hf : findDollarBrace input = some (pre, rest)) :
    substSpec vars input =
      pre ++ (match spanUntilRBrace rest with
              | (name, none) => '$' :: '{' :: name
              | (name, some after) =>
                (match List.lookup (String.mk name) vars with
                 | some v => v.data
                 | none => '$' :: '{' :: (name ++ ['}'])) ++ substSpec vars after) := by
  rw [substSpec]
  split
  · rename_i heq
    rw [hf] at heq
    exact absurd heq (by simp)
  · rename_i pre2 rest2 heq
    rw [hf] at heq
    injection heq with heq
    injection heq with h1 h2
    subst h1 h2
    split
    · rename_i name heq2
      rw [heq2]
    · rename_i name after heq2
      rw [List.append_assoc, heq2]

theorem substSpec_open (vars : List (String × String)) (rest : List Char) :
    substSpec vars ('$' :: '{' :: rest) =
      match spanUntilRBrace rest with
      | (name, none) => '$' :: '{' :: name
      | (name, some after) =>
        (match List.lookup (String.mk name) vars with
         | some v => v.data
         | none => '$' :: '{' :: (name ++ ['}'])) ++ substSpec vars after := by
  rw [substSpec_of_find_some vars _ [] rest (by rw [findDollarBrace, if_pos ⟨rfl, rfl⟩])]
  rw [List.nil_append]

theorem substSpec_cons (vars : List (String × String)) (c1 c2 : Char)
    (rest : List Char) (hc : ¬(c1 = '$' ∧ c2 = '{')) :
    substSpec vars (c1 :: c2 :: rest) = c1 :: substSpec vars (c2 :: rest) := by
  rcases hf : findDollarBrace (c2 :: rest) with _ | ⟨p, r⟩
  · have hf2 : findDollarBrace (c1 :: c2 :: rest) = none := by
      rw [findDollarBrace, if_neg hc, hf]
      rfl
    rw [substSpec_of_find_none vars _ hf2, substSpec_of_find_none vars _ hf]
  · have hf2 : findDollarBrace (c1 :: c2 :: rest) = some (c1 :: p, r) := by
      rw [findDollarBrace, if_neg hc, hf]
      rfl
    rw [substSpec_of_find_some vars _ _ _ hf2, substSpec_of_find_some vars _ _ _ hf]
    rw [List.cons_append]

theorem substLoop_open_some (vars : List (String × String))
    (rest name after : List Char) (hsp : spanUntilRBrace rest = (name, some after)) :
    substLoop vars ('$' :: '{' :: rest) =
      (match List.lookup (String.mk name) vars with
       | some v => v.data
       | none => '$' :: '{' :: (name ++ ['}'])) ++ substLoop vars after := by
  rw [substLoop, if_pos ⟨rfl, rfl⟩]
  split
  · rename_i name2 after2 heq
    rw [hsp] at heq
    injection heq with h1 h2
    injection h2 with h2
    subst h1 h2
    rfl
  · rename_i name2 heq
    rw [hsp] at heq
    injection heq with h1 h2
    exact absurd h2 (by simp)

theorem substLoop_open_none (vars : List (String × String)) (rest name : List Char)
    (hsp : spanUntilRBrace rest = (name, none)) :
    substLoop vars ('$' :: '{' :: rest) = '$' :: '{' :: name := by
  rw [substLoop, if_pos ⟨rfl, rfl⟩]
  split
  · rename_i name2 after2 heq
    rw [hsp] at heq
    injection heq with h1 h2
    exact absurd h2 (by simp)
  · rename_i name2 heq
    rw [hsp] at heq
    injection heq with h1 h2
    subst h1
    rfl

theorem substLoop_eq_substSpec (vars : List (String × String)) (input : List Char) :
    substLoop vars input = substSpec vars input := by
  induction input using substLoop.induct vars with
  | case1 => rw [substLoop, substSpec_of_find_none vars _ (by rw [findDollarBrace])]
  | case2 c => rw [substLoop, substSpec_of_find_none vars _ (by rw [findDollarBrace])]
  | case3 c1 c2 rest hc name after hsp ih =>
    obtain ⟨h1, h2⟩ := hc
    subst h1 h2
    rw [substLoop_open_some vars rest name after hsp, substSpec_open, hsp, ih]
  | case4 c1 c2 rest hc name hsp =>
    obtain ⟨h1, h2⟩ := hc
    subst h1 h2
    rw [substLoop_open_none vars rest name hsp, substSpec_open, hsp]
  | case5 c1 c2 rest hc ih =>
    rw [substLoop, if_neg hc, ih, substSpec_cons vars c1 c2 rest hc]

theorem hasDollarBrace_false_find (l : List Char) (h : hasDollarBrace l = false) :
    findDollarBrace l = none := by
  induction l using findDollarBrace.induct with
  | case1 => rw [findDollarBrace]
  | case2 c => rw [findDollarBrace]
  | case3 c1 c2 tl hc =>
    rw [hasDollarBrace] at h
    simp [hc] at h
  | case4 c1 c2 tl hc ih =>
    rw [hasDollarBrace] at h
    simp at h
    rw [findDollarBrace, if_neg hc, ih h.2]
    rfl

theorem substitute_variables_eq_substSpec (input : List Char)
    (vars : List (String × String)) :
    substitute_variables input vars = substSpec vars input := by
  rw [substitute_variables]
  by_cases h : hasDollarBrace input
  · rw [if_pos h, substLoop_eq_substSpec]
  · rw [if_neg h]
    rw [substSpec_of_find_none vars input (hasDollarBrace_false_find input (by simpa using h))]

theorem substitute_variables_eq_substLoop (input : List Char)
    (vars : List (String × String)) :
    substitute_variables input vars = substLoop vars input := by
  rw [substitute_variables_eq_substSpec, substLoop_eq_substSpec]

theorem spanUntilRBrace_exact (name rest : List Char) (hn : '}' ∉ name) :
    spanUntilRBrace (name ++ '}' :: rest) = (name, some rest) := by
  induction name with
  | nil => simp [spanUntilRBrace]
  | cons c tl ih =>
    have hc : ¬ c = '}' := by
      intro h
      exact hn (by simp [h])
    have ihh := ih (by intro h; exact hn (by simp [h]))
    rw [List.cons_append, spanUntilRBrace, if_neg hc, ihh]

/-! ## Streaming aggregator (engine/aggregator.rs)

`record` takes the per-second bucket key (the source reads it from the
monotonic clock via `self.start_time.elapsed().as_secs()`) as an explicit
argument.  Wall-clock and `f64` derived fields (`mean_ms`, `current_rps`,
`elapsed_ms`, timestamps) are outside the embedding; every other field of
the source structures is carried. -/

/-- Sentinel initial value of the `min_ms` accumulator (`u64::MAX`). -/
def U64MAX : ℕ := 2 ^ 64 - 1

/-- Per-second statistics bucket (`BucketStats`). -/
structure BucketStats where
  requests : ℕ
  errors : ℕ
  sum_ms : ℕ
  min_ms : ℕ
  max_ms : ℕ

/-- State of `StreamingAggregator` (aggregator.rs lines 72-87), without the
two clock fields. -/
structure StreamingAggregator where
  total_requests : ℕ
  total_errors : ℕ
  response_times : List ℕ
  min_ms : ℕ
  max_ms : ℕ
  sum_ms : ℕ
  total_bytes : ℕ
  time_buckets : List (ℕ × BucketStats)

/-- Fresh aggregator, as built by `StreamingAggregator::new`. -/
def StreamingAggregator.new : StreamingAggregator :=
  { total_requests := 0
    total_errors := 0
    response_times := []
    min_ms := U64MAX
    max_ms := 0
    sum_ms := 0
    total_bytes := 0
    time_buckets := [] }

/-- Mutation applied to the current time bucket by `record`. -/
def updateBucket (b : BucketStats) (elapsed_ms : ℕ) (success : Bool) : BucketStats :=
  { requests := b.requests + 1
    errors := if success then b.errors else b.errors + 1
    sum_ms := b.sum_ms + elapsed_ms
    min_ms := if elapsed_ms < b.min_ms then elapsed_ms else b.min_ms
    max_ms := if elapsed_ms > b.max_ms then elapsed_ms else b.max_ms }

/-- Read a bucket, defaulting to the `or_insert` initial value. -/
def bucketEntry (buckets : List (ℕ × BucketStats)) (key : ℕ) : BucketStats :=
  match buckets.lookup key with
  | some b => b
  | none => ⟨0, 0, 0, U64MAX, 0⟩

/-- Store a bucket back under its key (`BTreeMap` insert, modelled on an
association list: replace the binding or append a new one). -/
def insertBucket : List (ℕ × BucketStats) → ℕ → BucketStats → List (ℕ × BucketStats)
  | [], key, b => [(key, b)]
  | (k, v) :: tl, key, b =>
    if k = key then (key, b) :: tl else (k, v) :: insertBucket tl key b

/-- Embedding of `StreamingAggregator::record` (aggregator.rs lines 107-143). -/
def StreamingAggregator.record (a : StreamingAggregator) (elapsed_ms : ℕ)
    (success : Bool) (size_bytes : ℕ) (bucket_key : ℕ) : StreamingAggregator :=
  { total_requests := a.total_requests + 1
    total_errors := if success then a.total_errors else a.total_errors + 1
    response_times := a.response_times ++ [elapsed_ms]
    sum_ms := a.sum_ms + elapsed_ms
    min_ms := if elapsed_ms < a.min_ms then elapsed_ms else a.min_ms
    max_ms := if elapsed_ms > a.max_ms then elapsed_ms else a.max_ms
    total_bytes := a.total_bytes + size_bytes
    time_buckets :=
      insertBucket a.time_buckets bucket_key
        (updateBucket (bucketEntry a.time_buckets bucket_key) elapsed_ms success) }

/-- One recorded request: the arguments of a `record` call plus the bucket
key the clock would have produced at that moment. -/
structure RecordCall where
  elapsed_ms : ℕ
  success : Bool
  size_bytes : ℕ
  bucket_key : ℕ

/-- Aggregator state reached from `new` by a finite sequence of `record`
calls. -/
def applyRecords (calls : List RecordCall) : StreamingAggregator :=
  calls.foldl
    (fun a c => a.record c.elapsed_ms c.success c.size_bytes c.bucket_key)
    StreamingAggregator.new

/-! ### Exact model of the `f64` arithmetic in `percentile`

`(p / 100.0) * sorted.len() as f64` performs two IEEE-754 double operations,
each correctly rounded to nearest, ties to even.  `floatRound` is that
rounding on exact rationals, for inputs in the normal range (the only
inputs the claims use; no overflow, subnormal or NaN handling).  Inputs
that are not positive do not occur in the claims and map to 0. -/

/-- Round a rational to the nearest integer, ties to even. -/
def rhe (q : ℚ) : ℤ :=
  if q - ⌊q⌋ < 1 / 2 then ⌊q⌋
  else if 1 / 2 < q - ⌊q⌋ then ⌊q⌋ + 1
  else if ⌊q⌋ % 2 = 0 then ⌊q⌋ else ⌊q⌋ + 1

/-- Binary exponent of a positive rational: the unique `e` with
`2 ^ e ≤ x < 2 ^ (e + 1)`. -/
def expOf (x : ℚ) : ℤ :=
  Int.log 2 x

/-- Correctly rounded `f64` value of a positive rational: round the
53-bit significand to nearest, ties to even. -/
def floatRound (x : ℚ) : ℚ :=
  if x ≤ 0 then 0
  else (rhe (x / 2 ^ (expOf x - 52)) : ℚ) * 2 ^ (expOf x - 52)

/-- Embedding of `StreamingAggregator::percentile` (aggregator.rs lines
149-158): empty list yields 0; otherwise sort a copy, compute
`((p / 100.0) * len as f64).ceil() as usize`, saturating-subtract 1, clamp
with `min(len - 1)` and index. -/
def StreamingAggregator.percentile (a : StreamingAggregator) (p : ℚ) : ℕ :=
  if a.response_times.isEmpty then 0
  else
    (List.insertionSort (· ≤ ·) a.response_times).getD
      (min ((⌈floatRound (floatRound (p / 100) * (a.response_times.length : ℚ))⌉).toNat - 1)
        (a.response_times.length - 1)) 0

/-- Snapshot fields populated by `StreamingAggregator::snapshot`
(aggregator.rs lines 211-235); `mean_ms`, `current_rps` and `elapsed_ms`
are clock/`f64` fields outside the embedding. -/
structure AggregatorSnapshot where
  total_requests : ℕ
  total_errors : ℕ
  total_successes : ℕ
  min_ms : ℕ
  max_ms : ℕ
  p50_ms : ℕ
  p95_ms : ℕ
  p99_ms : ℕ
  total_bytes : ℕ

/-- Embedding of `StreamingAggregator::snapshot`. -/
def StreamingAggregator.snapshot (a : StreamingAggregator) : AggregatorSnapshot :=
  { total_requests := a.total_requests
    total_errors := a.total_errors
    total_successes := a.total_requests - a.total_errors
    min_ms := if a.min_ms = U64MAX then 0 else a.min_ms
    max_ms := a.max_ms
    p50_ms := a.percentile 50
    p95_ms := a.percentile 95
    p99_ms := a.percentile 99
    total_bytes := a.total_bytes }

/-- Summary fields populated by `StreamingAggregator::summary`
(aggregator.rs lines 170-208); timestamps, `mean_response_ms` and
`requests_per_second` are wall-clock/`f64` fields outside the embedding. -/
structure TestSummary where
  plan_id : ℕ
  plan_name : String
  total_requests : ℕ
  successful_requests : ℕ
  failed_requests : ℕ
  min_response_ms : ℕ
  max_response_ms : ℕ
  p50_response_ms : ℕ
  p95_response_ms : ℕ
  p99_response_ms : ℕ
  total_bytes_received : ℕ

/-- Embedding of `StreamingAggregator::summary`. -/
def StreamingAggregator.summary (a : StreamingAggregator) (plan_id : ℕ)
    (plan_name : String) : TestSummary :=
  { plan_id := plan_id
    plan_name := plan_name
    total_requests := a.total_requests
    successful_requests := a.total_requests - a.total_errors
    failed_requests := a.total_errors
    min_response_ms := if a.min_ms = U64MAX then 0 else a.min_ms
    max_response_ms := a.max_ms
    p50_response_ms := a.percentile 50
    p95_response_ms := a.percentile 95
    p99_response_ms := a.percentile 99
    total_bytes_received := a.total_bytes }

theorem record_errors_le (a : StreamingAggregator) (e : ℕ) (s : Bool) (sz k : ℕ)
    (h : a.total_errors ≤ a.total_requests) :
    (a.record e s sz k).total_errors ≤ (a.record e s sz k).total_requests := by
  cases s <;> simp [StreamingAggregator.record] <;> omega

theorem applyRecords_errors_le (calls : List RecordCall) :
    (applyRecords calls).total_errors ≤ (applyRecords calls).total_requests := by
  have key : ∀ (l : List RecordCall) (a : StreamingAggregator),
      a.total_errors ≤ a.total_requests →
      (l.foldl (fun a c => a.record c.elapsed_ms c.success c.size_bytes c.bucket_key)
        a).total_errors ≤
      (l.foldl (fun a c => a.record c.elapsed_ms c.success c.size_bytes c.bucket_key)
        a).total_requests := by
    intro l
    induction l with
    | nil => intro a h; exact h
    | cons c tl ih =>
      intro a h
      exact ih _ (record_errors_le a _ _ _ _ h)
  exact key calls StreamingAggregator.new (by simp [StreamingAggregator.new])

theorem applyRecords_total (calls : List RecordCall) :
    (applyRecords calls).total_requests = calls.length := by
  have key : ∀ (l : List RecordCall) (a : StreamingAggregator),
      (l.foldl (fun a c => a.record c.elapsed_ms c.success c.size_bytes c.bucket_key)
        a).total_requests = a.total_requests + l.length := by
    intro l
    induction l with
    | nil => intro a; simp
    | cons c tl ih =>
      intro a
      rw [List.foldl_cons, ih]
      simp [StreamingAggregator.record]
      omega
  rw [applyRecords, key]
  simp [StreamingAggregator.new]

theorem applyRecords_min (calls : List RecordCall) :
    (applyRecords calls).min_ms =
      calls.foldl (fun m c => if c.elapsed_ms < m then c.elapsed_ms else m) U64MAX := by
  have key : ∀ (l : List RecordCall) (a : StreamingAggregator),
      (l.foldl (fun a c => a.record c.elapsed_ms c.success c.size_bytes c.bucket_key)
        a).min_ms = l.foldl (fun m c => if c.elapsed_ms < m then c.elapsed_ms else m)
          a.min_ms := by
    intro l
    induction l with
    | nil => intro a; rfl
    | cons c tl ih =>
      intro a
      rw [List.foldl_cons, ih]
      rfl
  rw [applyRecords, key]
  rfl

theorem foldlMin_cases (l : List RecordCall) (M : ℕ) :
    (l.foldl (fun m c => if c.elapsed_ms < m then c.elapsed_ms else m) M = M ∧
       ∀ c ∈ l, M ≤ c.elapsed_ms) ∨
    ((l.foldl (fun m c => if c.elapsed_ms < m then c.elapsed_ms else m) M
        ∈ l.map (·.elapsed_ms)) ∧
      (∀ c ∈ l, l.foldl (fun m c => if c.elapsed_ms < m then c.elapsed_ms else m) M
        ≤ c.elapsed_ms) ∧
      l.foldl (fun m c => if c.elapsed_ms < m then c.elapsed_ms else m) M ≤ M) := by
  induction l generalizing M with
  | nil => left; simp
  | cons c tl ih =>
    rw [List.foldl_cons]
    by_cases hc : c.elapsed_ms < M
    · rw [if_pos hc]
      rcases ih c.elapsed_ms with ⟨h1, h2⟩ | ⟨h1, h2, h3⟩
      · right
        refine ⟨by simp [h1], ?_, by omega⟩
        intro d hd
        rcases List.mem_cons.mp hd with hd | hd
        · subst hd
          omega
        · have := h2 d hd
          omega
      · right
        refine ⟨by simp [h1], ?_, by omega⟩
        intro d hd
        rcases List.mem_cons.mp hd with hd | hd
        · subst hd
          omega
        · exact h2 d hd
    · rw [if_neg hc]
      rcases ih M with ⟨h1, h2⟩ | ⟨h1, h2, h3⟩
      · left
        refine ⟨h1, ?_⟩
        intro d hd
        rcases List.mem_cons.mp hd with hd | hd
        · subst hd
          omega
        · exact h2 d hd
      · right
        refine ⟨by simp [h1], ?_, h3⟩
        intro d hd
        rcases List.mem_cons.mp hd with hd | hd
        · subst hd
          omega
        · exact h2 d hd

theorem rhe_ge_floor (q : ℚ) : ⌊q⌋ ≤ rhe q := by
  rw [rhe]
  split
  · omega
  · split
    · omega
    · split <;> omega

theorem expOf_le (x : ℚ) (hx : 0 < x) : (2 : ℚ) ^ expOf x ≤ x :=
  Int.zpow_log_le_self (by norm_num) hx

theorem expOf_eq (x : ℚ) (e : ℤ) (hx : 0 < x) (hl : (2 : ℚ) ^ e ≤ x)
    (hu : x < 2 ^ (e + 1)) : expOf x = e := by
  have hL : (2 : ℚ) ^ Int.log 2 x ≤ x := Int.zpow_log_le_self (by norm_num) hx
  have hU : x < 2 ^ (Int.log 2 x + 1) := Int.lt_zpow_succ_log_self (by norm_num) x
  have h1 : Int.log 2 x ≤ e := by
    by_contra h
    push_neg at h
    have hmono : (2 : ℚ) ^ (e + 1) ≤ 2 ^ Int.log 2 x :=
      zpow_le_zpow_right₀ one_le_two (by omega)
    exact absurd hu (not_lt.mpr (hmono.trans hL))
  have h2 : e ≤ Int.log 2 x := by
    by_contra h
    push_neg at h
    have hmono : (2 : ℚ) ^ (Int.log 2 x + 1) ≤ 2 ^ e :=
      zpow_le_zpow_right₀ one_le_two (by omega)
    exact absurd hU (not_lt.mpr (hmono.trans hl))
  rw [expOf]
  omega

theorem floatRound_pos (x : ℚ) (hx : 0 < x) : 0 < floatRound x := by
  rw [floatRound, if_neg (not_le.mpr hx)]
  have hs : (0 : ℚ) < 2 ^ (expOf x - 52) := zpow_pos (by norm_num) _
  have hy : (1 : ℚ) ≤ x / 2 ^ (expOf x - 52) := by
    have h1 : (2 : ℚ) ^ expOf x / 2 ^ (expOf x - 52) ≤ x / 2 ^ (expOf x - 52) := by
      gcongr
      exact expOf_le x hx
    have h2 : (2 : ℚ) ^ expOf x / 2 ^ (expOf x - 52) = 2 ^ (52 : ℤ) := by
      rw [← zpow_sub₀ (by norm_num : (2 : ℚ) ≠ 0)]
      congr 1
      omega
    have h3 : (1 : ℚ) ≤ 2 ^ (52 : ℤ) := by
      rw [show ((52 : ℤ)) = ((52 : ℕ) : ℤ) by norm_num, zpow_natCast]
      norm_num
    rw [h2] at h1
    exact h3.trans h1
  have hfl : (1 : ℤ) ≤ ⌊x / 2 ^ (expOf x - 52)⌋ := by
    rw [Int.le_floor]
    exact_mod_cast hy
  have hr : (1 : ℤ) ≤ rhe (x / 2 ^ (expOf x - 52)) :=
    hfl.trans (rhe_ge_floor _)
  have hr' : (0 : ℚ) < (rhe (x / 2 ^ (expOf x - 52)) : ℚ) := by
    exact_mod_cast (by omega : (0 : ℤ) < rhe (x / 2 ^ (expOf x - 52)))
  exact mul_pos hr' hs

theorem floatRound_eval (x : ℚ) (e m : ℤ) (hx : 0 < x) (hl : (2 : ℚ) ^ e ≤ x)
    (hu : x < 2 ^ (e + 1)) (hm : rhe (x / 2 ^ (e - 52)) = m) :
    floatRound x = (m : ℚ) * 2 ^ (e - 52) := by
  rw [floatRound, if_neg (not_le.mpr hx), expOf_eq x e hx hl hu, hm]

theorem rhe_eval_up (q : ℚ) (f : ℤ) (hf : ⌊q⌋ = f) (hlt : 1 / 2 < q - f) :
    rhe q = f + 1 := by
  rw [rhe, hf, if_neg (by push_neg; linarith), if_pos hlt]

theorem rhe_eval_down (q : ℚ) (f : ℤ) (hf : ⌊q⌋ = f) (hlt : q - f < 1 / 2) :
    rhe q = f := by
  rw [rhe, hf, if_pos hlt]

theorem zpowNegEval (n : ℕ) : (2 : ℚ) ^ (-(n : ℤ)) = 1 / 2 ^ n := by
  rw [zpow_neg, zpow_natCast, one_div]

theorem floatRound_7_100 :
    floatRound (7 / 100) = 5044031582654956 * (2 : ℚ) ^ (-(56 : ℕ) : ℤ) := by
  have hq : (7 / 100 : ℚ) / 2 ^ ((-4 : ℤ) - 52) = 504403158265495552 / 100 := by
    rw [show ((-4 : ℤ) - 52) = (-(56 : ℕ) : ℤ) by norm_num, zpowNegEval]
    norm_num
  have hfl : ⌊(504403158265495552 : ℚ) / 100⌋ = 5044031582654955 := by
    rw [Int.floor_eq_iff]
    constructor <;> norm_num
  have hm : rhe ((7 / 100 : ℚ) / 2 ^ ((-4 : ℤ) - 52)) = 5044031582654956 := by
    rw [hq, rhe_eval_up _ 5044031582654955 hfl (by norm_num)]
    norm_num
  have := floatRound_eval (7 / 100) (-4) 5044031582654956 (by norm_num)
    (by rw [show ((-4 : ℤ)) = (-(4 : ℕ) : ℤ) by norm_num, zpowNegEval]; norm_num)
    (by rw [show ((-4 : ℤ) + 1) = (-(3 : ℕ) : ℤ) by norm_num, zpowNegEval]; norm_num)
    hm
  rw [this, show ((-4 : ℤ) - 52) = (-(56 : ℕ) : ℤ) by norm_num]
  norm_num

theorem floatRound_7_100_times_100 :
    floatRound (5044031582654956 * (2 : ℚ) ^ (-(56 : ℕ) : ℤ) * 100) =
      7881299347898369 * (2 : ℚ) ^ (-(50 : ℕ) : ℤ) := by
  have hx : (5044031582654956 : ℚ) * 2 ^ (-(56 : ℕ) : ℤ) * 100 =
      504403158265495600 / 72057594037927936 := by
    rw [zpowNegEval]
    norm_num
  have hq : (504403158265495600 : ℚ) / 72057594037927936 / 2 ^ ((2 : ℤ) - 52) =
      31525197391593475 / 4 := by
    rw [show ((2 : ℤ) - 52) = (-(50 : ℕ) : ℤ) by norm_num, zpowNegEval]
    norm_num
  have hfl : ⌊(31525197391593475 : ℚ) / 4⌋ = 7881299347898368 := by
    rw [Int.floor_eq_iff]
    constructor <;> norm_num
  have hm : rhe ((504403158265495600 : ℚ) / 72057594037927936 / 2 ^ ((2 : ℤ) - 52)) =
      7881299347898369 := by
    rw [hq, rhe_eval_up _ 7881299347898368 hfl (by norm_num)]
    norm_num
  rw [hx]
  have := floatRound_eval (504403158265495600 / 72057594037927936) 2 7881299347898369
    (by norm_num)
    (by rw [show ((2 : ℚ) ^ (2 : ℤ)) = 4 by norm_num]; norm_num)
    (by rw [show ((2 : ℚ) ^ ((2 : ℤ) + 1)) = 8 by norm_num]; norm_num)
    hm
  rw [this, show ((2 : ℤ) - 52) = (-(50 : ℕ) : ℤ) by norm_num]
  norm_num

theorem ceil_F_eval : ⌈(7881299347898369 : ℚ) * 2 ^ (-(50 : ℕ) : ℤ)⌉ = 8 := by
  rw [Int.ceil_eq_iff]
  rw [zpowNegEval]
  constructor <;> norm_num

/-- Aggregator state with a given response-time list (all other fields as in
a fresh aggregator); `percentile` reads nothing else. -/
def aggOfTimes (ts : List ℕ) : StreamingAggregator :=
  { StreamingAggregator.new with response_times := ts }

/-- Modelled from the words of the specification (claim C1): the classical
nearest-rank percentile with exact rational arithmetic — sort a copy, take
the element at index `ceil(p / 100 * n) - 1` clamped to `[0, n - 1]`, and 0
on an empty list.  Used only to compare against `percentile`. -/
def nearestRank (ts : List ℕ) (p : ℚ) : ℕ :=
  if ts = [] then 0
  else
    (List.insertionSort (· ≤ ·) ts).getD
      ((max 0 (min ((ts.length : ℤ) - 1) (⌈p / 100 * (ts.length : ℚ)⌉ - 1))).toNat) 0

/-- C1 counterexample: on the 100 response times `0, 1, ..., 99` the code
returns `percentile(7) = 7`, while the claimed exact nearest-rank method
gives the element at index `ceil(0.07 * 100) - 1 = 6`, namely 6.  The `f64`
product `(7.0 / 100.0) * 100.0` rounds up to `7.000000000000001`, so its
ceiling is 8, not 7. -/
theorem c1_counterexample_percentile_not_nearest_rank :
    (aggOfTimes (List.range 100)).percentile 7 = 7 ∧
      nearestRank (List.range 100) 7 = 6 ∧ (7 : ℕ) ≠ 6 := by
  have hsort : List.insertionSort (· ≤ ·) (List.range 100) = List.range 100 :=
    List.Sorted.insertionSort_eq (List.pairwise_le_range 100)
  have hresp : (aggOfTimes (List.range 100)).response_times = List.range 100 := rfl
  refine ⟨?_, ?_, by decide⟩
  · rw [StreamingAggregator.percentile, hresp, List.length_range, hsort,
      if_neg (by decide : ¬((List.range 100).isEmpty = true))]
    simp only [Nat.cast_ofNat]
    rw [floatRound_7_100, floatRound_7_100_times_100, ceil_F_eval]
    decide
  · rw [nearestRank, if_neg (by decide : ¬(List.range 100 = [])), List.length_range,
      hsort]
    simp only [Nat.cast_ofNat]
    have hc : ⌈(7 : ℚ) / 100 * 100⌉ = 7 := by
      rw [show (7 : ℚ) / 100 * 100 = 7 by norm_num]
      norm_num
    rw [hc]
    decide

/-- C1 (amended): for `p ∈ (0, 100]`, `percentile(p)` returns 0 when no
samples have been recorded; otherwise it returns the element, of the sorted
copy of the response-time list, at index `ceil(F) - 1` clamped to
`[0, n - 1]`, where `F` is the IEEE-754 double-precision evaluation of
`(p / 100) * n` (two correctly rounded operations).  `F` differs from the
exact product only through floating-point rounding, which is what the
counterexample exhibits. -/
theorem c1_percentile_f64_nearest_rank (a : StreamingAggregator) (p : ℚ)
    (h1 : 0 < p) (h2 : p ≤ 100) :
    (a.response_times = [] → a.percentile p = 0) ∧
    (a.response_times ≠ [] →
      a.percentile p =
        (List.insertionSort (· ≤ ·) a.response_times).getD
          ((max 0 (min ((a.response_times.length : ℤ) - 1)
            (⌈floatRound (floatRound (p / 100) * (a.response_times.length : ℚ))⌉ - 1))).toNat)
          0) := by
  constructor
  · intro h
    rw [StreamingAggregator.percentile, if_pos (by simp [h])]
  · intro hne
    rw [StreamingAggregator.percentile, if_neg (by simpa using hne)]
    have hn : 1 ≤ a.response_times.length := List.length_pos.mpr hne
    have hF : 0 < floatRound (floatRound (p / 100) * (a.response_times.length : ℚ)) := by
      apply floatRound_pos
      apply mul_pos (floatRound_pos _ (div_pos h1 (by norm_num)))
      exact_mod_cast Nat.lt_of_lt_of_le Nat.zero_lt_one hn
    have hc : 1 ≤ ⌈floatRound (floatRound (p / 100) * (a.response_times.length : ℚ))⌉ :=
      Int.ceil_pos.mpr hF
    congr 1
    omega

/-- C1 witness: the amended theorem applied at the one-sample aggregator
`[5]` with `p = 50`; both hypotheses are discharged at the concrete input. -/
theorem c1_percentile_f64_nearest_rank_witness :
    (aggOfTimes [5]).percentile 50 =
      (List.insertionSort (· ≤ ·) (aggOfTimes [5]).response_times).getD
        ((max 0 (min (((aggOfTimes [5]).response_times.length : ℤ) - 1)
          (⌈floatRound (floatRound ((50 : ℚ) / 100) *
            ((aggOfTimes [5]).response_times.length : ℚ))⌉ - 1))).toNat)
        0 :=
  (c1_percentile_f64_nearest_rank (aggOfTimes [5]) 50 (by norm_num) (by norm_num)).2
    (by decide)

/-- C2: every aggregator state reachable by a finite sequence of `record`
calls satisfies `total_successes + total_errors = total_requests` in the
snapshot and `successful_requests + failed_requests = total_requests` in
the summary. -/
theorem c2_success_error_partition (calls : List RecordCall) (pid : ℕ)
    (pname : String) :
    (applyRecords calls).snapshot.total_successes
        + (applyRecords calls).snapshot.total_errors
        = (applyRecords calls).snapshot.total_requests ∧
    ((applyRecords calls).summary pid pname).successful_requests
        + ((applyRecords calls).summary pid pname).failed_requests
        = ((applyRecords calls).summary pid pname).total_requests := by
  have h := applyRecords_errors_le calls
  constructor
  · simp only [StreamingAggregator.snapshot]
    omega
  · simp only [StreamingAggregator.summary]
    omega

/-- C3 counterexample: recording a single request with `elapsed_ms = 0`
yields a snapshot whose `min_ms` is 0 while `total_requests = 1`, refuting
the claimed equivalence of `min_ms = 0` with `total_requests = 0`. -/
theorem c3_min_zero_with_requests :
    (applyRecords [⟨0, true, 0, 0⟩]).snapshot.min_ms = 0 ∧
      (applyRecords [⟨0, true, 0, 0⟩]).snapshot.total_requests = 1 := by
  constructor <;> decide

/-- C3 (amended): the `min_ms` reported by `snapshot` and `summary` agree;
they are 0 when `total_requests = 0`; and when `total_requests > 0` and no
recorded `elapsed_ms` equals the `u64::MAX` sentinel, the reported value is
the minimum `elapsed_ms` passed to `record` so far — which may itself be 0,
so a reported 0 does not imply `total_requests = 0`. -/
theorem c3_min_reported_amended (calls : List RecordCall) (pid : ℕ)
    (pname : String) :
    ((applyRecords calls).summary pid pname).min_response_ms
        = (applyRecords calls).snapshot.min_ms ∧
    ((applyRecords calls).snapshot.total_requests = 0 →
      (applyRecords calls).snapshot.min_ms = 0) ∧
    (0 < (applyRecords calls).snapshot.total_requests →
      (∀ c ∈ calls, c.elapsed_ms < U64MAX) →
      ((applyRecords calls).snapshot.min_ms ∈ calls.map (·.elapsed_ms) ∧
        ∀ c ∈ calls, (applyRecords calls).snapshot.min_ms ≤ c.elapsed_ms)) := by
  refine ⟨rfl, ?_, ?_⟩
  · intro h
    have htot : (applyRecords calls).total_requests = calls.length :=
      applyRecords_total calls
    have hzero : calls.length = 0 := by
      simp only [StreamingAggregator.snapshot] at h
      omega
    have hnil : calls = [] := List.length_eq_zero.mp hzero
    subst hnil
    decide
  · intro htot hall
    have hlen : calls.length ≠ 0 := by
      have := applyRecords_total calls
      simp only [StreamingAggregator.snapshot] at htot
      omega
    have hne : calls ≠ [] := by
      intro h
      exact hlen (by simp [h])
    have hmin := applyRecords_min calls
    rcases foldlMin_cases calls U64MAX with ⟨h1, h2⟩ | ⟨h1, h2, h3⟩
    · rcases List.exists_mem_of_ne_nil calls hne with ⟨c, hc⟩
      have := h2 c hc
      have := hall c hc
      omega
    · have hmem : (applyRecords calls).min_ms ∈ calls.map (·.elapsed_ms) := by
        rw [hmin]
        exact h1
      have hne_sentinel : (applyRecords calls).min_ms ≠ U64MAX := by
        rcases List.mem_map.mp hmem with ⟨c, hc, hceq⟩
        have := hall c hc
        omega
      have hsnap : (applyRecords calls).snapshot.min_ms = (applyRecords calls).min_ms := by
        simp only [StreamingAggregator.snapshot, if_neg hne_sentinel]
      rw [hsnap]
      refine ⟨hmem, ?_⟩
      intro c hc
      rw [hmin]
      exact h2 c hc

/-- C3 witness: the amended theorem applied to the single record call with
`elapsed_ms = 5`; the reported minimum is a member of the recorded list and
a lower bound of it. -/
theorem c3_min_reported_amended_witness :
    (applyRecords [⟨5, true, 0, 0⟩]).snapshot.min_ms
        ∈ ([⟨5, true, 0, 0⟩] : List RecordCall).map (·.elapsed_ms) ∧
      ∀ c ∈ ([⟨5, true, 0, 0⟩] : List RecordCall),
        (applyRecords [⟨5, true, 0, 0⟩]).snapshot.min_ms ≤ c.elapsed_ms :=
  (c3_min_reported_amended [⟨5, true, 0, 0⟩] 0 "").2.2 (by decide) (by decide)

/-! ## JSON values, dotted-path navigation, assertions, extractors
(assertions/mod.rs and extractors/mod.rs)

`serde_json::Value` is modelled by `Json` (numbers as integers; float
payloads are irrelevant to every claim).  `serde_json::from_str` and the
`regex` crate are external dependencies, passed in as function parameters.
Byte indices in path segments are modelled as character indices; the two
agree on ASCII segments, and all concrete path inputs below are ASCII. -/

inductive Json where
  | null
  | bool (b : Bool)
  | num (n : ℤ)
  | str (s : String)
  | arr (elems : List Json)
  | obj (fields : List (String × Json))

mutual

/-- Structural equality used by the `JsonPath` assertion (`value == expected`
on `serde_json::Value`). -/
def Json.beq : Json → Json → Bool
  | .null, .null => true
  | .bool a, .bool b => a == b
  | .num a, .num b => a == b
  | .str a, .str b => a == b
  | .arr a, .arr b => Json.beqList a b
  | .obj a, .obj b => Json.beqFields a b
  | _, _ => false

def Json.beqList : List Json → List Json → Bool
  | [], [] => true
  | a :: as2, b :: bs2 => Json.beq a b && Json.beqList as2 bs2
  | _, _ => false

def Json.beqFields : List (String × Json) → List (String × Json) → Bool
  | [], [] => true
  | (k1, v1) :: t1, (k2, v2) :: t2 => k1 == k2 && Json.beq v1 v2 && Json.beqFields t1 t2
  | _, _ => false

end

mutual

/-- Compact rendering of a JSON value, standing in for both
`serde_json::to_string` and the `Debug` formatting used in messages (the
exact message text is not load-bearing for any claim). -/
def Json.render : Json → String
  | .null => "null"
  | .bool b => if b then "true" else "false"
  | .num n => toString n
  | .str s => "\"" ++ s ++ "\""
  | .arr l => "[" ++ Json.renderList l ++ "]"
  | .obj l => "\x7b" ++ Json.renderFields l ++ "\x7d"

def Json.renderList : List Json → String
  | [] => ""
  | [x] => Json.render x
  | x :: xs => Json.render x ++ ", " ++ Json.renderList xs

def Json.renderFields : List (String × Json) → String
  | [] => ""
  | [(k, v)] => "\"" ++ k ++ "\": " ++ Json.render v
  | (k, v) :: xs => "\"" ++ k ++ "\": " ++ Json.render v ++ ", " ++ Json.renderFields xs

end

/-- `Value::get` with a string key: object field lookup, `None` elsewhere. -/
def Json.getKey : Json → String → Option Json
  | .obj fields, k => fields.lookup k
  | _, _ => none

/-- `Value::get` with a `usize`: array indexing, `None` elsewhere. -/
def Json.getIdx : Json → ℕ → Option Json
  | .arr l, i => l.get? i
  | _, _ => none

/-- Index of the first occurrence of a character (`str::find`). -/
def findIdx (c : Char) : List Char → Option ℕ
  | [] => none
  | x :: xs => if x = c then some 0 else (findIdx c xs).map (· + 1)

/-- Index of the last occurrence of a character (`str::rfind`). -/
def rfindIdx (c : Char) : List Char → Option ℕ
  | [] => none
  | x :: xs =>
    match rfindIdx c xs with
    | some i => some (i + 1)
    | none => if x = c then some 0 else none

/-- Rust slice `&s[a..b]`: defined when `a ≤ b ≤ len`, a panic otherwise. -/
def sliceChars (s : List Char) (a b : ℕ) : Option (List Char) :=
  if a ≤ b ∧ b ≤ s.length then some ((s.drop a).take (b - a)) else none

/-- `str::parse::<usize>` restricted to plain digit strings (the only shapes
any claim exercises; leading `+` signs and overflow are not modelled). -/
def parseUsize (s : List Char) : Option ℕ :=
  if s.isEmpty then none
  else if s.all (fun c => c.isDigit) then
    some (s.foldl (fun acc c => acc * 10 + (c.toNat - 48)) 0)
  else none

/-- `str::split` on a single separator character. -/
def splitOnChar (sep : Char) : List Char → List (List Char)
  | [] => [[]]
  | c :: rest =>
    match splitOnChar sep rest with
    | [] => [[]]
    | s :: ss => if c = sep then [] :: s :: ss else (c :: s) :: ss

/-- One loop iteration of `navigate_json_path` over a path segment
(assertions/mod.rs lines 253-269, identical in extractors/mod.rs): outer
`none` is a panic (the slice `&segment[bracket_pos + 1..closing]` with an
inverted range), `some none` is the "not found" early return, `some (some v)`
continues with `v`. -/
def navigateSegment (cur : Json) (seg : List Char) : Option (Option Json) :=
  match findIdx '[' seg with
  | none => some (cur.getKey (String.mk seg))
  | some bracket_pos =>
    let key := seg.take bracket_pos
    let closing := (rfindIdx ']' seg).getD (seg.length - 1)
    match sliceChars seg (bracket_pos + 1) closing with
    | none => none
    | some idx_str =>
      match (if key.isEmpty then some cur else cur.getKey (String.mk key)) with
      | none => some none
      | some c =>
        match parseUsize idx_str with
        | none => some none
        | some i => some (c.getIdx i)

/-- Fold of `navigateSegment` over the remaining segments, propagating both
panic (`none`) and the `?`-style early return (`some none`). -/
def navGo : Json → List (List Char) → Option (Option Json)
  | cur, [] => some (some cur)
  | cur, seg :: rest =>
    match navigateSegment cur seg with
    | none => none
    | some none => some none
    | some (some c) => navGo c rest

/-- Embedding of `navigate_json_path` (the identical private function in
assertions/mod.rs lines 248-271 and extractors/mod.rs lines 269-292):
split the path on dots and walk the segments. -/
def navigate_json_path (v : Json) (path : String) : Option (Option Json) :=
  navGo v (splitOnChar '.' path.data)

/-- `AssertionRule` (assertions/mod.rs lines 13-32). -/
inductive AssertionRule where
  | statusCodeEquals (expected : ℕ)
  | statusCodeNotEquals (not_expected : ℕ)
  | statusCodeRange (rangeMin rangeMax : ℕ)
  | bodyContains (substring : String)
  | bodyNotContains (substring : String)
  | jsonPath (expression : String) (expected : Json)
  | responseTimeBelow (threshold_ms : ℕ)
  | headerEquals (header expected : String)
  | headerContains (header substring : String)

/-- `ResponseContext` (assertions/mod.rs lines 53-58); the header map is an
association list with the keys the engine stored. -/
structure ResponseContext where
  status_code : ℕ
  headers : List (String × String)
  body : String
  elapsed_ms : ℕ

/-- Does the second list occur contiguously inside the first? -/
def containsAux (sub : List Char) : List Char → Bool
  | [] => sub.isEmpty
  | c :: rest => sub.isPrefixOf (c :: rest) || containsAux sub rest

/-- Rust `str::contains` on another string. -/
def strContains (hay sub : String) : Bool :=
  containsAux sub.data hay.data

/-- Embedding of `evaluate_assertion` (assertions/mod.rs lines 67-194),
parameterised by the external JSON parser; `none` is a panic escaping from
`navigate_json_path`. -/
def evaluate_assertion (parse : String → Except String Json)
    (rule : AssertionRule) (ctx : ResponseContext) : Option (Bool × String) :=
  match rule with
  | .statusCodeEquals expected =>
    if ctx.status_code = expected then
      some (true, "Status code " ++ toString ctx.status_code ++ " matches expected "
        ++ toString expected)
    else
      some (false, "Expected status " ++ toString expected ++ ", got "
        ++ toString ctx.status_code)
  | .statusCodeNotEquals not_expected =>
    if ctx.status_code ≠ not_expected then
      some (true, "Status code " ++ toString ctx.status_code ++ " is not "
        ++ toString not_expected)
    else
      some (false, "Status code " ++ toString ctx.status_code ++ " should not be "
        ++ toString not_expected)
  | .statusCodeRange rangeMin rangeMax =>
    if rangeMin ≤ ctx.status_code ∧ ctx.status_code ≤ rangeMax then
      some (true, "Status " ++ toString ctx.status_code ++ " is within range ["
        ++ toString rangeMin ++ ", " ++ toString rangeMax ++ "]")
    else
      some (false, "Status " ++ toString ctx.status_code ++ " is outside range ["
        ++ toString rangeMin ++ ", " ++ toString rangeMax ++ "]")
  | .bodyContains substring =>
    if strContains ctx.body substring then
      some (true, "Body contains \"" ++ substring ++ "\"")
    else
      some (false, "Body does not contain \"" ++ substring ++ "\"")
  | .bodyNotContains substring =>
    if strContains ctx.body substring then
      some (false, "Body unexpectedly contains \"" ++ substring ++ "\"")
    else
      some (true, "Body does not contain \"" ++ substring ++ "\"")
  | .jsonPath expression expected =>
    match parse ctx.body with
    | .ok json =>
      match navigate_json_path json expression with
      | none => none
      | some (some value) =>
        if Json.beq value expected then
          some (true, "JSON path \"" ++ expression ++ "\" equals "
            ++ Json.render expected)
        else
          some (false, "JSON path \"" ++ expression ++ "\" expected "
            ++ Json.render expected ++ ", got " ++ Json.render value)
      | some none =>
        some (false, "JSON path \"" ++ expression ++ "\" not found in response")
    | .error e => some (false, "Failed to parse response as JSON: " ++ e)
  | .responseTimeBelow threshold_ms =>
    if ctx.elapsed_ms < threshold_ms then
      some (true, "Response time " ++ toString ctx.elapsed_ms ++ " ms < "
        ++ toString threshold_ms ++ " ms threshold")
    else
      some (false, "Response time " ++ toString ctx.elapsed_ms ++ " ms exceeds "
        ++ toString threshold_ms ++ " ms threshold")
  | .headerEquals header expected =>
    match ctx.headers.lookup header with
    | some value =>
      if value = expected then
        some (true, "Header \"" ++ header ++ "\" equals \"" ++ expected ++ "\"")
      else
        some (false, "Header \"" ++ header ++ "\" expected \"" ++ expected
          ++ "\", got \"" ++ value ++ "\"")
    | none => some (false, "Header \"" ++ header ++ "\" not found in response")
  | .headerContains header substring =>
    match ctx.headers.lookup header with
    | some value =>
      if strContains value substring then
        some (true, "Header \"" ++ header ++ "\" contains \"" ++ substring ++ "\"")
      else
        some (false, "Header \"" ++ header ++ "\" value \"" ++ value
          ++ "\" does not contain \"" ++ substring ++ "\"")
    | none => some (false, "Header \"" ++ header ++ "\" not found in response")

/-- `ExtractorRule` (extractors/mod.rs lines 17-24). -/
inductive ExtractorRule where
  | jsonPath (expression : String)
  | regex (pattern : String) (group : ℕ)
  | header (name : String)

/-- `ExtractionContext` (extractors/mod.rs lines 52-56). -/
structure ExtractionContext where
  status_code : ℕ
  headers : List (String × String)
  body : String

/-- ASCII lowercasing, modelling `str::to_lowercase` on the ASCII header
names all claims use. -/
def lowercaseStr (s : String) : String :=
  String.mk (s.data.map Char.toLower)

/-- `json_value_to_string` (extractors/mod.rs lines 298-306): strings are
returned unquoted, other values use their JSON representation. -/
def json_value_to_string : Json → String
  | .str s => s
  | .num n => toString n
  | .bool b => if b then "true" else "false"
  | .null => "null"
  | other => Json.render other

/-- Embedding of `evaluate_extractor` (extractors/mod.rs lines 65-151),
parameterised by the external JSON parser and the `regex` crate.
`regexCaps pattern body` yields a compile error, no match, or the capture
groups of the first match (`none` entries are non-participating groups).
Outer `none` on the result is a panic escaping from `navigate_json_path`. -/
def evaluate_extractor (parse : String → Except String Json)
    (regexCaps : String → String → Except String (Option (List (Option String))))
    (rule : ExtractorRule) (ctx : ExtractionContext) :
    Option (Bool × Option String × String) :=
  match rule with
  | .jsonPath expression =>
    match parse ctx.body with
    | .ok json =>
      match navigate_json_path json expression with
      | none => none
      | some (some value) =>
        some (true, some (json_value_to_string value),
          "JSON path \"" ++ expression ++ "\" extracted \""
            ++ json_value_to_string value ++ "\"")
      | some none =>
        some (false, none,
          "JSON path \"" ++ expression ++ "\" not found in response body")
    | .error e =>
      some (false, none, "Failed to parse response body as JSON: " ++ e)
  | .regex pattern group =>
    match regexCaps pattern ctx.body with
    | .ok (some caps) =>
      match caps.get? group with
      | some (some m) =>
        some (true, some m, "Regex \"" ++ pattern ++ "\" group " ++ toString group
          ++ " extracted \"" ++ m ++ "\"")
      | _ =>
        some (false, none, "Regex \"" ++ pattern ++ "\" matched but group "
          ++ toString group ++ " does not exist")
    | .ok none =>
      some (false, none, "Regex \"" ++ pattern ++ "\" did not match the response body")
    | .error e =>
      some (false, none, "Invalid regex pattern \"" ++ pattern ++ "\": " ++ e)
  | .header name =>
    match ctx.headers.lookup (lowercaseStr name) with
    | some value =>
      some (true, some value, "Header \"" ++ name ++ "\" extracted \""
        ++ value ++ "\"")
    | none => some (false, none, "Header \"" ++ name ++ "\" not found in response")

/-- Map entry insertion with replacement (`HashMap::insert`: later values
for the same key overwrite earlier ones). -/
def insertVar : List (String × String) → String → String → List (String × String)
  | [], k, v => [(k, v)]
  | (k0, v0) :: tl, k, v =>
    if k0 = k then (k, v) :: tl else (k0, v0) :: insertVar tl k v

/-- Response-header collection in `build_and_send` (virtual_user.rs lines
404-414): values that are not valid UTF-8 (`none`) are dropped, names are
lowercased, and later values overwrite earlier ones. -/
def collectHeaders (raw : List (String × Option String)) : List (String × String) :=
  raw.foldl
    (fun m p =>
      match p.2 with
      | none => m
      | some v => insertVar m (lowercaseStr p.1) v)
    []

/-- C4: the engine stores response-header keys lowercased (first conjunct),
but `evaluate_assertion` looks the header name of the assertion up verbatim, so
the `HeaderEquals` assertion written with the mixed-case name
`Content-Type` fails against such a map while the same assertion with the
lowercased name passes — the claimed equivalence is violated at this
input. -/
theorem c4_header_assertion_case_sensitivity_bug :
    collectHeaders [("Content-Type", some "application/json")]
        = [("content-type", "application/json")] ∧
    (evaluate_assertion (fun _ => Except.error "")
        (.headerEquals "Content-Type" "application/json")
        ⟨200, [("content-type", "application/json")], "", 0⟩).map Prod.fst
        = some false ∧
    (evaluate_assertion (fun _ => Except.error "")
        (.headerEquals "content-type" "application/json")
        ⟨200, [("content-type", "application/json")], "", 0⟩).map Prod.fst
        = some true := by
  refine ⟨by decide, by decide, by decide⟩

/-- C5: the dotted-path navigator is not total — on the path `"["` (a
segment containing a left bracket but no closing bracket after it) the
slice `&segment[bracket_pos + 1..closing]` has an inverted range and the
Rust code panics; the panic escapes `evaluate_assertion` and
`evaluate_extractor` whenever the body parses as JSON, contradicting their
documented never-panics contract. -/
theorem c5_navigator_panic_bug :
    navigate_json_path (Json.obj []) "[" = none ∧
    evaluate_assertion
        (fun s => if s = "\x7b\x7d" then Except.ok (Json.obj []) else Except.error "syntax")
        (.jsonPath "[" Json.null) ⟨200, [], "\x7b\x7d", 0⟩ = none ∧
    evaluate_extractor
        (fun s => if s = "\x7b\x7d" then Except.ok (Json.obj []) else Except.error "syntax")
        (fun _ _ => Except.error "unused") (.jsonPath "[") ⟨200, [], "\x7b\x7d"⟩ = none := by
  refine ⟨rfl, rfl, rfl⟩

/-- C6: `substitute_variables` implements exactly the left-to-right
specification scanner (`substSpec`): bound placeholders are replaced,
unbound placeholders are left syntactically intact, an unclosed opener is
emitted verbatim as the consumed text, and a dollar sign not followed by a
left brace is copied verbatim; consequently substitution with an empty
store is the identity on any input with no placeholder opener. -/
theorem c6_substitution_left_to_right :
    (∀ (input : List Char) (vars : List (String × String)),
      substitute_variables input vars = substSpec vars input) ∧
    (∀ input : List Char, hasDollarBrace input = false →
      substitute_variables input [] = input) := by
  constructor
  · exact substitute_variables_eq_substSpec
  · intro input h
    rw [substitute_variables, if_neg (by simp [h])]

/-- C6 witness: the identity part applied to the concrete placeholder-free
input `ab`, and the scanner equivalence at a concrete input. -/
theorem c6_substitution_left_to_right_witness :
    substitute_variables ['a', 'b'] [] = ['a', 'b'] ∧
      substitute_variables ['x'] [("a", "b")] = substSpec [("a", "b")] ['x'] :=
  ⟨c6_substitution_left_to_right.2 ['a', 'b'] (by decide),
   c6_substitution_left_to_right.1 ['x'] [("a", "b")]⟩

/-- C10: a substituted value is emitted verbatim and scanning resumes after
the closing brace of the placeholder — the inserted text is never
re-scanned, whatever placeholder-like text the store value contains. -/
theorem c10_store_values_not_rescanned (vars : List (String × String))
    (name : List Char) (v : String) (rest : List Char)
    (hn : '}' ∉ name) (hv : List.lookup (String.mk name) vars = some v) :
    substitute_variables ('$' :: '{' :: (name ++ '}' :: rest)) vars
      = v.data ++ substitute_variables rest vars := by
  rw [substitute_variables_eq_substLoop, substitute_variables_eq_substLoop,
    substLoop_open_some vars (name ++ '}' :: rest) name rest
      (spanUntilRBrace_exact name rest hn), hv]

/-- C10 witness: substituting `x`, whose stored value is itself the
placeholder text for the bound variable `y`, yields that placeholder text
verbatim rather than the value of `y`. -/
theorem c10_store_values_not_rescanned_witness :
    substitute_variables ('$' :: '{' :: (['x'] ++ '}' :: []))
        [("x", "${y}"), ("y", "Z")]
      = "${y}".data ++ substitute_variables [] [("x", "${y}"), ("y", "Z")] :=
  c10_store_values_not_rescanned [("x", "${y}"), ("y", "Z")] ['x'] "${y}" []
    (by decide) (by decide)

/-! ## Response-body truncation (virtual_user.rs lines 234-243)

Here the byte structure of the decoded body matters, so the body is a list
of characters with an explicit UTF-8 byte length, and the Rust `String`
byte slice `&body[..MAX]` is partial: it panics when `MAX` is not a
character boundary. -/

/-- `MAX_RESPONSE_BODY_LEN` (results/mod.rs line 43). -/
def MAX_RESPONSE_BODY_LEN : ℕ := 4096

/-- UTF-8 encoded size of a character in bytes. -/
def utf8Size (c : Char) : ℕ :=
  if c.toNat < 0x80 then 1
  else if c.toNat < 0x800 then 2
  else if c.toNat < 0x10000 then 3
  else 4

/-- UTF-8 byte length of a string (`String::len` in Rust). -/
def byteLen (s : List Char) : ℕ :=
  (s.map utf8Size).sum

/-- Rust byte slice `&s[..n]`: the characters occupying the first `n`
bytes, or a panic (`none`) when `n` exceeds the length or falls inside a
character. -/
def takeBytes : List Char → ℕ → Option (List Char)
  | _, 0 => some []
  | [], _ + 1 => none
  | c :: rest, n + 1 =>
    if utf8Size c ≤ n + 1 then (takeBytes rest (n + 1 - utf8Size c)).map (c :: ·)
    else none

/-- Embedding of the body-preview computation in `execute_single_request`
(virtual_user.rs lines 234-243): bodies longer than the limit are sliced at
byte 4096 and suffixed with the truncation marker, empty bodies give
`none`, and anything else is passed through whole.  The outer `none` is the
panic of the byte slice. -/
def truncatedBody (body : List Char) : Option (Option (List Char)) :=
  if byteLen body > MAX_RESPONSE_BODY_LEN then
    (takeBytes body MAX_RESPONSE_BODY_LEN).map (fun s => some (s ++ "…[truncated]".data))
  else if body.isEmpty then some none
  else some (some body)

theorem byteLen_append (a b : List Char) : byteLen (a ++ b) = byteLen a + byteLen b := by
  simp [byteLen]

theorem byteLen_replicate_a (n : ℕ) : byteLen (List.replicate n 'a') = n := by
  induction n with
  | zero => rfl
  | succ n ih =>
    rw [List.replicate_succ, byteLen, List.map_cons, List.sum_cons, ← byteLen, ih]
    have h1 : utf8Size 'a' = 1 := by decide
    omega

theorem takeBytes_mid_char (n : ℕ) (r : List Char) :
    takeBytes (List.replicate n 'a' ++ 'é' :: r) (n + 1) = none := by
  have h2 : utf8Size 'é' = 2 := by decide
  have h1 : utf8Size 'a' = 1 := by decide
  induction n with
  | zero =>
    rw [List.replicate_zero, List.nil_append, takeBytes, if_neg (by rw [h2]; omega)]
  | succ n ih =>
    rw [List.replicate_succ, List.cons_append, takeBytes, if_pos (by rw [h1]; omega), h1]
    rw [show n + 1 + 1 - 1 = n + 1 by omega, ih]
    rfl

/-- C7: the body preview computation panics on a realistic body — 4095
ASCII bytes followed by a two-byte character: its byte length 4098 exceeds
the 4096 limit, and slicing at byte 4096 lands inside the two-byte
character, so the Rust slice `&body_text[..4096]` panics instead of
producing the claimed first-4096-bytes preview. -/
theorem c7_truncation_panics_inside_char :
    byteLen (List.replicate 4095 'a' ++ 'é' :: ['a']) = 4098 ∧
      truncatedBody (List.replicate 4095 'a' ++ 'é' :: ['a']) = none := by
  have hb : byteLen (List.replicate 4095 'a' ++ 'é' :: ['a']) = 4098 := by
    rw [byteLen_append, byteLen_replicate_a]
    decide
  refine ⟨hb, ?_⟩
  rw [truncatedBody, if_pos (by rw [hb]; decide), show MAX_RESPONSE_BODY_LEN = 4095 + 1 from rfl,
    takeBytes_mid_char]
  rfl

/-! ## Request execution (virtual_user.rs, `execute_single_request` and
`build_and_send`)

The network and `serde_json` are external: the network outcome for a
request is supplied as data, the parser as a function.  Identifiers,
timestamps and the measured elapsed time are opaque inputs.  The extractor
write-back into the shared variable map has no claim about it and is not
modelled. -/

/-- `HttpMethod` (plan/model.rs lines 11-19). -/
inductive HttpMethod where
  | get | post | put | delete | patch | head | options

/-- `Display` for `HttpMethod` (plan/model.rs lines 21-34). -/
def methodToString : HttpMethod → String
  | .get => "GET"
  | .post => "POST"
  | .put => "PUT"
  | .delete => "DELETE"
  | .patch => "PATCH"
  | .head => "HEAD"
  | .options => "OPTIONS"

/-- `RequestBody` (plan/model.rs lines 42-51). -/
inductive RequestBody where
  | json (s : String)
  | formData (pairs : List (String × String))
  | raw (s : String)
  | xml (s : String)

/-- Plan `Assertion` (plan/model.rs lines 81-86); its `serde_json::Value`
rule is carried as the outcome of deserialising it into an
`AssertionRule`, which is what `evaluate_all` computes from it. -/
structure Assertion where
  id : ℕ
  name : String
  rule : Except String AssertionRule

/-- Plan `Extractor` (plan/model.rs lines 91-98); `variable_name` is the
source field `variable`, renamed because `variable` is reserved in Lean. -/
structure Extractor where
  id : ℕ
  name : String
  variable_name : String
  expression : Except String ExtractorRule

/-- Plan `HttpRequest` (plan/model.rs lines 106-122). -/
structure HttpRequest where
  id : ℕ
  name : String
  method : HttpMethod
  url : String
  headers : List (String × String)
  body : Option RequestBody
  assertions : List Assertion
  extractors : List Extractor
  enabled : Bool

/-- Embedding of `resolve_request_variables` (virtual_user.rs lines
300-349): substitution applied to the URL, every header key and value, and
the text bodies (Json, Raw, Xml) or form-data pairs. -/
def resolve_request_variables (req : HttpRequest) (vars : List (String × String)) :
    HttpRequest :=
  { req with
    url := String.mk (substitute_variables req.url.data vars)
    headers := req.headers.map (fun kv =>
      (String.mk (substitute_variables kv.1.data vars),
       String.mk (substitute_variables kv.2.data vars)))
    body := req.body.map (fun b =>
      match b with
      | .json s => .json (String.mk (substitute_variables s.data vars))
      | .raw s => .raw (String.mk (substitute_variables s.data vars))
      | .xml s => .xml (String.mk (substitute_variables s.data vars))
      | .formData pairs => .formData (pairs.map (fun kv =>
          (String.mk (substitute_variables kv.1.data vars),
           String.mk (substitute_variables kv.2.data vars))))) }

/-- `ResponseData` (virtual_user.rs lines 155-161). -/
structure ResponseData where
  status_code : ℕ
  size_bytes : ℕ
  headers : List (String × String)
  body_text : List Char

/-- Environment-supplied outcome of actually performing the HTTP exchange:
the send fails, the body read fails, or status line, raw headers, raw byte
count and lossily decoded body text arrive. -/
inductive NetOutcome where
  | sendError (msg : String)
  | readBodyError (status : ℕ) (rawHeaders : List (String × Option String)) (msg : String)
  | success (status : ℕ) (rawHeaders : List (String × Option String))
      (size_bytes : ℕ) (body_text : List Char)

/-- Embedding of `build_and_send` (virtual_user.rs lines 353-431): a `Json`
body whose resolved text does not parse aborts with an `Invalid JSON body`
error before anything is sent; then send and body-read failures map to
their error strings; on success the response headers are collected with
lowercased names. -/
def build_and_send (parse : String → Except String Json) (req : HttpRequest)
    (net : NetOutcome) : Except String ResponseData :=
  match
    (match req.body with
     | some (.json s) =>
       match parse s with
       | .error e => some ("Invalid JSON body: " ++ e)
       | .ok _ => none
     | _ => none) with
  | some e => .error e
  | none =>
    match net with
    | .sendError e => .error ("Network error: " ++ e)
    | .readBodyError _ _ e => .error ("Error reading response body: " ++ e)
    | .success status rawHeaders size body =>
      .ok ⟨status, size, collectHeaders rawHeaders, body⟩

/-- `AssertionResult` (assertions/mod.rs lines 41-46). -/
structure AssertionResult where
  assertion_id : ℕ
  assertion_name : String
  passed : Bool
  message : String

/-- `ExtractionResult` (extractors/mod.rs lines 33-45). -/
structure ExtractionResult where
  extractor_id : ℕ
  extractor_name : String
  variable_name : String
  success : Bool
  extracted_value : Option String
  message : String

/-- `RequestResultEvent` (results/mod.rs lines 47-71), with identifier,
plan id and timestamp opaque. -/
structure RequestResultEvent where
  id : ℕ
  plan_id : ℕ
  thread_group_name : String
  request_name : String
  timestamp : ℕ
  status_code : ℕ
  elapsed_ms : ℕ
  size_bytes : ℕ
  assertions_passed : Bool
  error : Option String
  assertion_results : List AssertionResult
  extraction_results : List ExtractionResult
  method : String
  url : String
  response_headers : List (String × String)
  response_body : Option (List Char)

/-- `assertions::evaluate_all` (assertions/mod.rs lines 205-231): rules
that failed to deserialise produce failing results; evaluation panics
propagate. -/
def evaluate_all_assertions (parse : String → Except String Json)
    (assertions : List Assertion) (ctx : ResponseContext) :
    Option (List AssertionResult) :=
  assertions.mapM (fun a =>
    match a.rule with
    | .ok rule =>
      (evaluate_assertion parse rule ctx).map (fun pm => ⟨a.id, a.name, pm.1, pm.2⟩)
    | .error e => some ⟨a.id, a.name, false, "Invalid assertion rule: " ++ e⟩)

/-- `extractors::evaluate_all` (extractors/mod.rs lines 162-192). -/
def evaluate_all_extractors (parse : String → Except String Json)
    (regexCaps : String → String → Except String (Option (List (Option String))))
    (extractors : List Extractor) (ctx : ExtractionContext) :
    Option (List ExtractionResult) :=
  extractors.mapM (fun x =>
    match x.expression with
    | .ok rule =>
      (evaluate_extractor parse regexCaps rule ctx).map
        (fun r => ⟨x.id, x.name, x.variable_name, r.1, r.2.1, r.2.2⟩)
    | .error e =>
      some ⟨x.id, x.name, x.variable_name, false, none, "Invalid extractor rule: " ++ e⟩)

/-- Embedding of `execute_single_request` (virtual_user.rs lines 171-288):
resolve variables, build and send, then either assemble the success event
(assertions, extractors, truncated body preview — each a possible panic) or
the network-failure event with zeroed status and size, no results, no
headers and no body. -/
def execute_single_request (parse : String → Except String Json)
    (regexCaps : String → String → Except String (Option (List (Option String))))
    (req : HttpRequest) (net : NetOutcome) (vars : List (String × String))
    (eid pid timestamp elapsed_ms : ℕ) (tg : String) :
    Option RequestResultEvent :=
  let resolved := resolve_request_variables req vars
  match build_and_send parse resolved net with
  | .ok rd =>
    match
      (if req.assertions.isEmpty then some []
       else evaluate_all_assertions parse req.assertions
         ⟨rd.status_code, rd.headers, String.mk rd.body_text, elapsed_ms⟩) with
    | none => none
    | some ars =>
      match
        (if req.extractors.isEmpty then some []
         else evaluate_all_extractors parse regexCaps req.extractors
           ⟨rd.status_code, rd.headers, String.mk rd.body_text⟩) with
      | none => none
      | some ers =>
        match truncatedBody rd.body_text with
        | none => none
        | some tb =>
          some
            { id := eid, plan_id := pid, thread_group_name := tg
              request_name := req.name, timestamp := timestamp
              status_code := rd.status_code, elapsed_ms := elapsed_ms
              size_bytes := rd.size_bytes
              assertions_passed := ars.all (·.passed)
              error := none
              assertion_results := ars, extraction_results := ers
              method := methodToString resolved.method, url := resolved.url
              response_headers := rd.headers, response_body := tb }
  | .error e =>
    some
      { id := eid, plan_id := pid, thread_group_name := tg
        request_name := req.name, timestamp := timestamp
        status_code := 0, elapsed_ms := elapsed_ms, size_bytes := 0
        assertions_passed := false, error := some e
        assertion_results := [], extraction_results := []
        method := methodToString resolved.method, url := resolved.url
        response_headers := [], response_body := none }

/-- C8: whenever `build_and_send` fails — any send or body-read failure,
and in particular a `Json` body whose resolved text does not parse (second
conjunct) — the emitted event has `status_code = 0`, zero size, failed
assertions flag, the error message, empty assertion and extraction result
lists, an empty response-header map and no response body. -/
theorem c8_network_failure_event (parse : String → Except String Json)
    (regexCaps : String → String → Except String (Option (List (Option String))))
    (req : HttpRequest) (net : NetOutcome) (vars : List (String × String))
    (eid pid timestamp elapsed_ms : ℕ) (tg : String) :
    (∀ e, build_and_send parse (resolve_request_variables req vars) net
        = .error e →
      execute_single_request parse regexCaps req net vars eid pid timestamp
          elapsed_ms tg
        = some
            ⟨eid, pid, tg, req.name, timestamp, 0, elapsed_ms, 0, false, some e,
              [], [], methodToString (resolve_request_variables req vars).method,
              (resolve_request_variables req vars).url, [], none⟩) ∧
    (∀ s err, (resolve_request_variables req vars).body = some (.json s) →
      parse s = .error err →
      build_and_send parse (resolve_request_variables req vars) net
        = .error ("Invalid JSON body: " ++ err)) := by
  constructor
  · intro e he
    rw [execute_single_request]
    rw [he]
  · intro s err hb hp
    rw [build_and_send.eq_def, hb]
    simp only [hp]

/-- C8 witness: a request whose JSON body text fails to parse under the
supplied parser produces exactly the zeroed failure event. -/
theorem c8_network_failure_event_witness :
    execute_single_request (fun _ => Except.error "expected value")
        (fun _ _ => Except.error "unused")
        ⟨1, "r", .post, "http://h/x", [], some (.json "oops"), [], [], true⟩
        (.sendError "refused") [] 7 8 9 10 "tg"
      = some
          ⟨7, 8, "tg", "r", 9, 0, 10, 0, false,
            some ("Invalid JSON body: " ++ "expected value"), [], [], "POST",
            "http://h/x", [], none⟩ := by
  have h := c8_network_failure_event (fun _ => Except.error "expected value")
    (fun _ _ => Except.error "unused")
    ⟨1, "r", .post, "http://h/x", [], some (.json "oops"), [], [], true⟩
    (.sendError "refused") [] 7 8 9 10 "tg"
  have hb := h.2 "oops" "expected value" (by rfl) (by rfl)
  have he := h.1 ("Invalid JSON body: " ++ "expected value") hb
  exact he

/-! ## CSV dispenser (executor.rs, `CsvDataSet`)

The per-source `AtomicUsize` counter becomes an explicit field threaded
through `next_row`; a run of `i` dispenser calls is `iterateNextRow i`. -/

/-- `CsvSourceRuntime` (executor.rs lines 28-33). -/
structure CsvSourceRuntime where
  columns : List String
  rows : List (List String)
  counter : ℕ
  recycle : Bool

/-- Step of one source inside `next_row` (executor.rs lines 68-83): empty
sources are skipped without touching the counter; otherwise `fetch_add`
bumps the counter, and the row index is the counter modulo the row count
when recycling, the raw counter while in range, and nothing (exhausted)
past the end. -/
def sourceNext (src : CsvSourceRuntime) : List (String × String) × CsvSourceRuntime :=
  if src.rows.isEmpty then ([], src)
  else
    let src' := { src with counter := src.counter + 1 }
    match
      (if src.recycle then some (src.counter % src.rows.length)
       else if src.counter < src.rows.length then some src.counter
       else none) with
    | none => ([], src')
    | some ri => (src.columns.zip (src.rows.getD ri []), src')

/-- Embedding of `CsvDataSet::next_row` (executor.rs lines 66-86): fold the
sources, inserting the column-value pairs of each contribution into the merged
map (later sources overwrite), and return the advanced sources. -/
def next_row (ds : List CsvSourceRuntime) :
    List (String × String) × List CsvSourceRuntime :=
  ds.foldl
    (fun acc src =>
      ((sourceNext src).1.foldl (fun m kv => insertVar m kv.1 kv.2) acc.1,
        acc.2 ++ [(sourceNext src).2]))
    ([], [])

/-- State of the dispenser after `i` calls to `next_row`. -/
def iterateNextRow : ℕ → List CsvSourceRuntime → List CsvSourceRuntime
  | 0, ds => ds
  | n + 1, ds => iterateNextRow n (next_row ds).2

theorem sourceNext_state (src : CsvSourceRuntime) (h : ¬src.rows.isEmpty) :
    (sourceNext src).2 = { src with counter := src.counter + 1 } := by
  rw [sourceNext, if_neg h]
  split <;> rfl

theorem iterateNextRow_single (cols : List String) (rows : List (List String))
    (recycle : Bool) (i k : ℕ) (h : ¬rows.isEmpty) :
    iterateNextRow i [⟨cols, rows, k, recycle⟩] = [⟨cols, rows, k + i, recycle⟩] := by
  induction i generalizing k with
  | zero => rfl
  | succ n ih =>
    rw [iterateNextRow]
    have hstep : (next_row [⟨cols, rows, k, recycle⟩]).2
        = [⟨cols, rows, k + 1, recycle⟩] := by
      rw [next_row, List.foldl_cons, List.foldl_nil]
      rw [sourceNext_state ⟨cols, rows, k, recycle⟩ h]
      rfl
    rw [hstep, ih]
    have hk : k + 1 + n = k + (n + 1) := by omega
    rw [hk]

/-- C9: for a CSV source with `n > 0` rows and fresh counter, the `i`-th
call (0-indexed) to `next_row` yields, when `recycle` is set, the merged
column-value mapping of row `i mod n`; without `recycle` it yields row `i`
while `i < n` and contributes nothing once `i ≥ n`. -/
theorem c9_csv_dispenser_rows (cols : List String) (rows : List (List String))
    (recycle : Bool) (i : ℕ) (h : 0 < rows.length) :
    (next_row (iterateNextRow i [⟨cols, rows, 0, recycle⟩])).1
      = if recycle then
          (cols.zip (rows.getD (i % rows.length) [])).foldl
            (fun m kv => insertVar m kv.1 kv.2) []
        else if i < rows.length then
          (cols.zip (rows.getD i [])).foldl (fun m kv => insertVar m kv.1 kv.2) []
        else [] := by
  have hne : ¬rows.isEmpty := by
    intro hc
    rw [List.isEmpty_iff] at hc
    subst hc
    simp at h
  rw [iterateNextRow_single cols rows recycle i 0 hne]
  rw [next_row, List.foldl_cons, List.foldl_nil]
  rw [show (0 + i) = i from by omega]
  rw [sourceNext, if_neg hne]
  cases recycle
  · by_cases hi : i < rows.length
    · simp [hi]
    · simp [hi]
  · simp

/-- C9 witness: three rows with `recycle = true`; the fifth call (index 4)
wraps to row `4 mod 3 = 1` and yields its column-value mapping. -/
theorem c9_csv_dispenser_rows_witness :
    (next_row (iterateNextRow 4
        [⟨["u", "p"], [["a", "1"], ["b", "2"], ["c", "3"]], 0, true⟩])).1
      = [("u", "b"), ("p", "2")] := by
  rw [c9_csv_dispenser_rows ["u", "p"] [["a", "1"], ["b", "2"], ["c", "3"]] true 4
    (by decide)]
  decide

end Rmeter
